import Mathlib

/-!
Shallow embedding of `src/AI-Content-Generator/main.py` (a Flask app that
generates restaurant social-media posts via an external completion API and
exports them as CSV/JSON), together with theorems settling the claims about
its post-processing, export and request-handling behaviour.

Modelling conventions:
* Python strings are Lean `String`s; `str.strip()` / `str.lstrip('#')` are
  embedded at the `List Char` level (`pyStrip`, dropping `Char.isWhitespace`
  from both ends, and `List.dropWhile (· = '#')`).
* The external completion API is an input: a parsed outcome `ApiOutcome`
  that is either a failure (network error, empty content, JSON decode error —
  all of which the Python code turns into a raised `ValueError`) or a list of
  raw items.  A raw item is `Option PostData`: `none` stands for a JSON array
  element that is not a dict; `PostData.caption = none` stands for a dict
  without a `"caption"` key.
* The image API `generate_food_image` is an oracle `imageGen : String →
  Option String`; `none` covers both its failure (the exception is swallowed)
  and the absence of a URL.
* `uuid.uuid4()` calls are modelled as a fresh-identifier supply: a `Nat`
  counter threaded through the code, each call yielding the current value and
  advancing it.  Distinct calls yield distinct identifiers.
* Flask `session` is a record of the keys the code uses; an `Option` field is
  `none` when the key is absent.  The `uploaded_images` dict (Python keys
  `str(post_index)`) is an association list keyed by the `Nat` index, which
  is faithful because `str` is injective on naturals.
* An HTTP response is a constructor of `Response`: rendered page, redirect
  carrying a flash message, JSON error with status code, JSON success, or a
  downloadable CSV (as its list of rows) / JSON file (as its ordered list of
  key/value fields).  The Python `csv` writer renders the integer cell
  `i + 1` and `None` image URLs as text; rows are modelled post-serialization
  as lists of strings (`toString (i+1)`, `Option.getD ""`).
-/

/-- Python `str.strip()` on the character list: drop whitespace from both ends. -/
def pyStripList (l : List Char) : List Char :=
  ((l.dropWhile Char.isWhitespace).reverse.dropWhile Char.isWhitespace).reverse

/-- Python `str.strip()`. -/
def pyStrip (s : String) : String :=
  ⟨pyStripList s.data⟩

/-- Python `str.lower()`, embedded characterwise (the strings the code
lowercases are hashtags and file extensions, for which per-character
lowercasing is the Python behaviour). -/
def pyLower (s : String) : String :=
  ⟨s.data.map Char.toLower⟩

/-- `str(tag).strip().lstrip('#')` as applied to one raw hashtag (main.py line 267). -/
def cleanTagStr (tag : String) : String :=
  ⟨(pyStripList tag.data).dropWhile (fun c => c = '#')⟩

/-- The body of the normalization loop of main.py lines 264-269: keep a tag only
if it is truthy and its cleaned form is non-empty. -/
def cleanTag (tag : String) : Option String :=
  if tag = "" then none
  else if cleanTagStr tag = "" then none else some (cleanTagStr tag)

/-- The `normalized_tags` list built by main.py lines 264-269. -/
def normalizeTagList (tags : List String) : List String :=
  tags.filterMap cleanTag

/-- The fixed locality tag list of main.py line 272. -/
def berlin_tags : List String :=
  ["berlineats", "mitte", "kreuzberg", "berlinfoodie", "berlin"]

/-- `has_berlin_tag` of main.py line 273. -/
def hasBerlinTag (tags : List String) : Bool :=
  tags.any (fun tag => berlin_tags.contains (pyLower tag))

/-- main.py lines 276-282: if no Berlin tag, replace the last tag (when there are
at least three) or append one. -/
def ensureBerlin (normalized_tags : List String) : List String :=
  if hasBerlinTag normalized_tags then normalized_tags
  else if 3 ≤ normalized_tags.length then normalized_tags.dropLast ++ ["BerlinEats"]
  else normalized_tags ++ ["BerlinEats"]

/-- One pass of the `while len(hashtags) < 3` padding loop of main.py
lines 286-292, with explicit fuel (each iteration grows the list by one, so
the loop runs at most `3 - len` times and fuel `3` makes the fuel recursion
exactly the loop, on every input). -/
def padTagsAux : Nat → List String → List String
  | 0, hashtags => hashtags
  | fuel + 1, hashtags =>
    if hashtags.length < 3 then
      let lowers := hashtags.map pyLower
      let next :=
        if ¬ lowers.contains "foodie" then "foodie"
        else if ¬ lowers.contains "delicious" then "delicious"
        else "restaurant"
      padTagsAux fuel (hashtags ++ [next])
    else hashtags

/-- The `while len(hashtags) < 3` padding loop of main.py lines 286-292. -/
def padTags (hashtags : List String) : List String :=
  padTagsAux 3 hashtags

/-- The full hashtag pipeline of main.py lines 261-294 applied to the raw
`"hashtags"` value: `none` is the not-a-list branch (line 294), `some tags`
runs normalize / ensure-Berlin / truncate-to-3 / pad-to-3. -/
def finalHashtags : Option (List String) → List String
  | none => ["BerlinEats", "foodie", "delicious"]
  | some tags => padTags ((ensureBerlin (normalizeTagList tags)).take 3)

/-- A raw post dict from the parsed API JSON.  `caption = none` stands for a dict
with no `"caption"` key; `hashtags = none` for a `"hashtags"` value that is not
a list (an absent key defaults to the empty list `some []`); `caption_german`,
`image_prompt` and `variant` default to `""` when absent, matching the
truthiness tests the code applies to them. -/
structure PostData where
  caption : Option String
  caption_german : String
  hashtags : Option (List String)
  image_prompt : String
  variant : String
deriving DecidableEq, Repr

/-- A generated post record (main.py lines 305-316 and 329-339).  `post_id` is
the value drawn from the uuid supply. -/
structure Post where
  caption : String
  caption_german : Option String
  hashtags : List String
  image_url : Option String
  image_prompt : String
  variant : String
  post_id : Nat
deriving DecidableEq, Repr

/-- Building one validated post (main.py lines 296-318), given the dict, its
caption value and the fresh identifier. -/
def mkPost (language : String) (imageGen : String → Option String)
    (pd : PostData) (c : String) (k : Nat) : Post :=
  { caption := c
    caption_german :=
      if language = "both" ∧ pd.caption_german ≠ "" then some pd.caption_german else none
    hashtags := finalHashtags pd.hashtags
    image_url := if pd.image_prompt ≠ "" then imageGen pd.image_prompt else none
    image_prompt := pd.image_prompt
    variant := pd.variant
    post_id := k }

/-- The validation loop of main.py lines 257-318: keep dict items that have a
`"caption"` key, drawing one fresh identifier per kept item. -/
def validPosts (language : String) (imageGen : String → Option String) :
    List (Option PostData) → Nat → List Post
  | [], _ => []
  | none :: rest, k => validPosts language imageGen rest k
  | some pd :: rest, k =>
    match pd.caption with
    | none => validPosts language imageGen rest k
    | some c => mkPost language imageGen pd c k :: validPosts language imageGen rest (k + 1)

/-- `default_prompt` of main.py line 322. -/
def default_prompt : String :=
  "Professional food photography of restaurant dish, appetizing and well-plated"

/-- One fallback post (main.py lines 321-341). -/
def fallbackPost (language : String) (imageGen : String → Option String) (k : Nat) : Post :=
  { caption := "Check out our amazing menu! Come visit us today! 🍴✨"
    caption_german :=
      if language = "both" then
        some "Schaut euch unser fantastisches Menü an! Besucht uns heute! 🍴✨"
      else none
    hashtags := ["BerlinEats", "foodie", "Mitte"]
    image_url := imageGen default_prompt
    image_prompt := default_prompt
    variant := "casual"
    post_id := k }

/-- One pass of the `while len(posts) < actual_posts_needed` loop of main.py
lines 320-341, with explicit fuel (each iteration appends one post, so the
loop runs at most `target` times and fuel `target` makes the fuel recursion
exactly the loop, on every input). -/
def padPostsAux (language : String) (imageGen : String → Option String)
    (target : Nat) : Nat → List Post → Nat → List Post
  | 0, posts, _ => posts
  | fuel + 1, posts, k =>
    if posts.length < target then
      padPostsAux language imageGen target fuel (posts ++ [fallbackPost language imageGen k])
        (k + 1)
    else posts

/-- The `while len(posts) < actual_posts_needed` padding loop of main.py
lines 320-341. -/
def padPosts (language : String) (imageGen : String → Option String)
    (target : Nat) (posts : List Post) (k : Nat) : List Post :=
  padPostsAux language imageGen target target posts k

/-- Outcome of the completion-API call as the Python code sees it after
`json.loads`: `apiError` collects every path that raises (API exception, `None`
content, JSON decode error); `ok` carries `result.get("posts", [])`. -/
inductive ApiOutcome where
  | apiError
  | ok (posts_data : List (Option PostData))
deriving DecidableEq, Repr

/-- `generate_multiple_social_media_posts` (main.py lines 177-350).  The prompt
construction only feeds the external API, whose parsed outcome is the `api`
argument; the uuid supply starts at `k`.  A raised `ValueError` is the
`Except.error` branch. -/
def generate_multiple_social_media_posts (menu_text : String) (num_posts : Nat)
    (language : String) (ab_test_mode : Bool) (api : ApiOutcome)
    (imageGen : String → Option String) (k : Nat) : Except String (List Post) :=
  let _ := menu_text
  let actual_posts_needed := if ab_test_mode then num_posts * 2 else num_posts
  match api with
  | .apiError => .error "Failed to generate social media posts"
  | .ok posts_data =>
    let posts := validPosts language imageGen posts_data k
    .ok ((padPosts language imageGen actual_posts_needed posts (k + posts.length)).take
      actual_posts_needed)

/-- One value of the JSON export object: a string field or the list of posts. -/
inductive JVal where
  | str (v : String)
  | posts (v : List Post)
deriving DecidableEq, Repr

/-- An HTTP response of the app, as observed by the client. -/
inductive Response where
  | renderIndex
  | renderResults (posts : List Post)
  | redirectFlash (msg category target : String)
  | jsonError (msg : String) (code : Nat)
  | jsonUpload (filename url : String)
  | fileCSV (rows : List (List String))
  | fileJSON (fields : List (String × JVal))
deriving DecidableEq, Repr

/-- Whether a response is a redirect carrying a flash message. -/
def Response.isFlashRedirect : Response → Bool
  | .redirectFlash _ _ _ => true
  | _ => false

/-- The Flask session keys the code reads and writes.  `none` marks an absent
key.  `uploaded_images` maps a post index to the stored filename. -/
structure Session where
  current_posts : Option (List Post)
  current_menu_text : Option String
  current_language : Option String
  uploaded_images : Option (List (Nat × String))
deriving DecidableEq, Repr

/-- The parsed form data of a `/generate` request.  `num_posts = none` stands
for a `num_posts` field on which `int(...)` raises `ValueError`. -/
structure GenForm where
  menu_text : String
  num_posts : Option Int
  language : String
  ab_test_mode : Bool
deriving DecidableEq, Repr

/-- The `/generate` handler `generate_posts` (main.py lines 35-82).  Returns
the response, the session after the request, and whether the completion API
was invoked.  Note the `int(...)` conversion at line 41 runs before any
validation, and the `ValueError` raised by
`generate_multiple_social_media_posts` is caught by the same
`except ValueError` branch as a malformed number. -/
def generate_posts (form : GenForm) (s : Session) (api : ApiOutcome)
    (imageGen : String → Option String) (k : Nat) : Response × Session × Bool :=
  match form.num_posts with
  | none =>
    (.redirectFlash "Invalid number of posts. Please enter a valid number." "error" "index",
      s, false)
  | some num_posts =>
    let menu_text := pyStrip form.menu_text
    if menu_text = "" then
      (.redirectFlash "Please enter your restaurant menu text." "error" "index", s, false)
    else if num_posts < 1 ∨ num_posts > 10 then
      (.redirectFlash "Number of posts must be between 1 and 10." "error" "index", s, false)
    else
      match generate_multiple_social_media_posts menu_text num_posts.toNat form.language
          form.ab_test_mode api imageGen k with
      | .error _ =>
        (.redirectFlash "Invalid number of posts. Please enter a valid number." "error" "index",
          s, true)
      | .ok posts =>
        if posts.isEmpty then
          (.redirectFlash "Failed to generate posts. Please try again." "error" "index", s, true)
        else
          let uploaded_images := s.uploaded_images.getD []
          let posts := posts.enum.map (fun ip =>
            match uploaded_images.lookup ip.fst with
            | some filename => { ip.snd with image_url := some ("/uploaded_image/" ++ filename) }
            | none => ip.snd)
          (.renderResults posts,
            { s with
              current_posts := some posts
              current_menu_text := some menu_text
              current_language := some form.language }, true)

/-- `ALLOWED_EXTENSIONS` (main.py line 19). -/
def ALLOWED_EXTENSIONS : List String :=
  ["png", "jpg", "jpeg", "gif", "webp"]

/-- `filename.rsplit('.', 1)[1].lower()`: the part of the filename after the
last dot, lowercased. -/
def fileExt (filename : String) : String :=
  pyLower ⟨(filename.data.reverse.takeWhile (fun c => c ≠ '.')).reverse⟩

/-- `allowed_file` (main.py lines 84-86): the filename contains a dot and the
part after the last dot, lowercased, is an allowed extension. -/
def allowed_file (filename : String) : Bool :=
  filename.data.contains '.' && ALLOWED_EXTENSIONS.contains (fileExt filename)

/-- The session updates of main.py lines 104-113: record the stored filename
for this post index and, when the session holds enough posts, rewrite that
post's image URL. -/
def uploadSession (post_index : Nat) (stored : String) (s : Session) : Session :=
  let ui := s.uploaded_images.getD []
  let s₁ := { s with
    uploaded_images := some ((post_index, stored) :: ui.filter (fun e => e.fst ≠ post_index)) }
  match s₁.current_posts with
  | some ps =>
    if post_index < ps.length then
      { s₁ with current_posts := some (ps.enum.map (fun ip =>
          if ip.fst = post_index then
            { ip.snd with image_url := some ("/uploaded_image/" ++ stored) }
          else ip.snd)) }
    else s₁
  | none => s₁

/-- The `/upload_image/<post_index>` handler (main.py lines 88-117).  `file` is
`none` when no `image` part is in the request, `some filename` otherwise; the
uuid supply value `k` names the stored file.  The Python guard
`if file and file.filename and allowed_file(...)` reduces to `allowed_file`
once `filename ≠ ''` is known, since a `FileStorage` is truthy exactly when its
filename is. -/
def upload_image (file : Option String) (post_index : Nat) (s : Session) (k : Nat) :
    Response × Session :=
  match file with
  | none => (.jsonError "No file selected" 400, s)
  | some filename =>
    if filename = "" then (.jsonError "No file selected" 400, s)
    else if allowed_file filename then
      let stored := toString k ++ "." ++ fileExt filename
      (.jsonUpload stored ("/uploaded_image/" ++ stored), uploadSession post_index stored s)
    else (.jsonError "Invalid file type" 400, s)

/-- The CSV header row (main.py line 140). -/
def csvHeaders : List String :=
  ["Post_Index", "Caption_EN", "Caption_DE", "Hashtags", "Image_URL", "Image_Prompt"]

/-- One CSV data row (main.py lines 144-152), post-serialization: the integer
index and `None` image URLs as the text the `csv` writer emits. -/
def csvRow (i : Nat) (p : Post) : List String :=
  [toString (i + 1), p.caption, p.caption_german.getD "",
    String.intercalate ", " p.hashtags, p.image_url.getD "", p.image_prompt]

/-- The `/export_posts` handler (main.py lines 124-175).  `now` is the
`datetime.now().isoformat()` string. -/
def export_posts (format_type : String) (s : Session) (now : String) : Response :=
  let posts := s.current_posts.getD []
  if posts.isEmpty then
    .redirectFlash "No posts to export. Please generate posts first." "error" "index"
  else if format_type = "csv" then
    .fileCSV (csvHeaders :: posts.enum.map (fun ip => csvRow ip.fst ip.snd))
  else
    .fileJSON
      [("menu_text", .str (s.current_menu_text.getD "")),
        ("language", .str (s.current_language.getD "english")),
        ("generated_at", .str now),
        ("posts", .posts posts)]

/-- The normalization guarantee one cleaned hashtag actually enjoys: non-empty,
not starting with `'#'`, and no trailing whitespace.  (Leading whitespace can
survive cleaning, because `strip()` runs before `lstrip('#')`.) -/
def normalizedTag (t : String) : Bool :=
  !t.data.isEmpty && t.data.head? != some '#' &&
    t.data.getLast?.all (fun c => !c.isWhitespace)

/-! ### Lemmas about the hashtag pipeline -/

theorem padTagsAux_length (fuel : Nat) (l : List String) (h : l.length ≤ 3)
    (hf : 3 ≤ fuel + l.length) : (padTagsAux fuel l).length = 3 := by
  induction fuel generalizing l with
  | zero => show l.length = 3; omega
  | succ fuel ih =>
    rw [padTagsAux]
    split
    next hlt => exact ih _ (by simp; omega) (by simp; omega)
    next hge => simp at hge; omega

theorem padTags_length (l : List String) (h : l.length ≤ 3) : (padTags l).length = 3 :=
  padTagsAux_length 3 l h (by omega)

theorem mem_padTagsAux_of_mem (fuel : Nat) (l : List String) (x : String) (hx : x ∈ l) :
    x ∈ padTagsAux fuel l := by
  induction fuel generalizing l with
  | zero => exact hx
  | succ fuel ih =>
    rw [padTagsAux]
    split
    next => exact ih _ (List.mem_append_left _ hx)
    next => exact hx

theorem mem_padTags_of_mem (l : List String) (x : String) (hx : x ∈ l) : x ∈ padTags l :=
  mem_padTagsAux_of_mem 3 l x hx

theorem mem_padTagsAux (fuel : Nat) (l : List String) (x : String)
    (hx : x ∈ padTagsAux fuel l) :
    x ∈ l ∨ x ∈ (["foodie", "delicious", "restaurant"] : List String) := by
  induction fuel generalizing l with
  | zero => exact Or.inl hx
  | succ fuel ih =>
    rw [padTagsAux] at hx
    split at hx
    next =>
      rcases ih _ hx with h | h
      · rcases List.mem_append.1 h with h | h
        · exact Or.inl h
        · right
          rcases List.mem_singleton.1 h with rfl
          split
          · decide
          · split <;> decide
      · exact Or.inr h
    next => exact Or.inl hx

theorem mem_padTags (l : List String) (x : String) (hx : x ∈ padTags l) :
    x ∈ l ∨ x ∈ (["foodie", "delicious", "restaurant"] : List String) :=
  mem_padTagsAux 3 l x hx

theorem finalHashtags_length (h : Option (List String)) : (finalHashtags h).length = 3 := by
  cases h with
  | none => rfl
  | some tags => exact padTags_length _ (List.length_take_le 3 _)

/-- Every list reaching `ensureBerlin` with at most three entries leaves it,
still with at most three entries, containing a locality tag. -/
theorem ensureBerlin_berlin (l : List String) (hle : l.length ≤ 3) :
    (∃ t ∈ ensureBerlin l, pyLower t ∈ berlin_tags) ∧ (ensureBerlin l).length ≤ 3 := by
  unfold ensureBerlin
  split
  next hb =>
    refine ⟨?_, hle⟩
    obtain ⟨t, ht, htl⟩ := List.any_eq_true.1 hb
    exact ⟨t, ht, by simpa using htl⟩
  next hb =>
    split
    next h3 =>
      refine ⟨⟨"BerlinEats", List.mem_append_right _ (by decide), by decide⟩, ?_⟩
      simp [List.length_dropLast]
      omega
    next h3 =>
      refine ⟨⟨"BerlinEats", List.mem_append_right _ (by decide), by decide⟩, ?_⟩
      simp
      omega

/-- If the raw hashtags value is not a list, or normalizes to at most three
tags, the final hashtag list contains a locality tag. -/
theorem finalHashtags_berlin (h : Option (List String))
    (hle : ∀ l, h = some l → (normalizeTagList l).length ≤ 3) :
    ∃ t ∈ finalHashtags h, pyLower t ∈ berlin_tags := by
  cases h with
  | none => exact ⟨"BerlinEats", by decide, by decide⟩
  | some tags =>
    obtain ⟨⟨t, ht, htl⟩, hlen⟩ := ensureBerlin_berlin _ (hle tags rfl)
    refine ⟨t, ?_, htl⟩
    exact mem_padTags_of_mem _ t (by rwa [List.take_of_length_le hlen])

/-- Characterization of one cleaned tag: it satisfies `normalizedTag`. -/
theorem cleanTag_spec (tag u : String) (h : cleanTag tag = some u) :
    normalizedTag u = true := by
  unfold cleanTag at h
  split at h
  · exact absurd h (by simp)
  · split at h
    next hc => exact absurd h (by simp)
    next hc =>
      obtain rfl : cleanTagStr tag = u := by simpa using h
      have hdata : (cleanTagStr tag).data = (pyStripList tag.data).dropWhile (fun c => c = '#') :=
        rfl
      have hne : (cleanTagStr tag).data ≠ [] := by
        intro hnil
        exact hc (by simpa [cleanTagStr, String.ext_iff] using hnil)
      have h1 : (cleanTagStr tag).data.head? ≠ some '#' := by
        rw [hdata]
        intro hhead
        have hh := List.head_dropWhile_not (fun c => c = '#') (pyStripList tag.data)
          (by rw [← hdata]; exact hne)
        rw [List.head?_eq_head (by rw [← hdata]; exact hne)] at hhead
        rw [Option.some_inj] at hhead
        rw [hhead] at hh
        simp at hh
      have h2 : ∀ c, (cleanTagStr tag).data.getLast? = some c → c.isWhitespace = false := by
        intro c hclast
        -- the cleaned data is a suffix of the stripped data, so they share a last element
        have hsuf : (cleanTagStr tag).data <:+ pyStripList tag.data := by
          rw [hdata]; exact List.dropWhile_suffix _
        obtain ⟨pre, hpre⟩ := hsuf
        have hstriplast : (pyStripList tag.data).getLast? = some c := by
          rw [← hpre, List.getLast?_append, hclast]
          rfl
        -- but the last element of a stripped list is never whitespace
        unfold pyStripList at hstriplast
        rw [List.getLast?_reverse] at hstriplast
        have hne2 : ((tag.data.dropWhile Char.isWhitespace).reverse.dropWhile
            Char.isWhitespace) ≠ [] := by
          intro hnil
          rw [hnil] at hstriplast
          simp at hstriplast
        have hh := List.head_dropWhile_not Char.isWhitespace
          ((tag.data.dropWhile Char.isWhitespace).reverse) hne2
        rw [List.head?_eq_head hne2, Option.some_inj] at hstriplast
        rwa [hstriplast] at hh
      have h3 : (cleanTagStr tag).data.getLast?.all (fun c => !c.isWhitespace) = true := by
        cases hl : (cleanTagStr tag).data.getLast? with
        | none => rfl
        | some c => show (!c.isWhitespace) = true; rw [h2 c hl]; rfl
      simp only [normalizedTag, Bool.and_eq_true, Bool.not_eq_true', List.isEmpty_iff,
        bne_iff_ne, ne_eq]
      refine ⟨⟨?_, h1⟩, h3⟩
      simpa [List.isEmpty_iff] using hne

/-- Every string in a final hashtag list satisfies `normalizedTag`. -/
theorem finalHashtags_spec (h : Option (List String)) (t : String)
    (ht : t ∈ finalHashtags h) : normalizedTag t = true := by
  have base : ∀ s ∈ (["BerlinEats", "foodie", "delicious", "restaurant", "Mitte"] : List String),
      normalizedTag s = true := by decide
  cases h with
  | none =>
    have ht' : t ∈ (["BerlinEats", "foodie", "delicious"] : List String) := ht
    fin_cases ht' <;> exact base _ (by decide)
  | some tags =>
    rcases mem_padTags _ t ht with h | h
    · have h' := List.mem_of_mem_take h
      unfold ensureBerlin at h'
      split at h'
      next =>
        obtain ⟨tag, -, htag⟩ := List.mem_filterMap.1 h'
        exact cleanTag_spec tag t htag
      next =>
        split at h'
        · rcases List.mem_append.1 h' with h'' | h''
          · obtain ⟨tag, -, htag⟩ := List.mem_filterMap.1 (List.dropLast_subset _ h'')
            exact cleanTag_spec tag t htag
          · have h3 := List.mem_singleton.1 h''
            subst h3
            exact base _ (by decide)
        · rcases List.mem_append.1 h' with h'' | h''
          · obtain ⟨tag, -, htag⟩ := List.mem_filterMap.1 h''
            exact cleanTag_spec tag t htag
          · have h3 := List.mem_singleton.1 h''
            subst h3
            exact base _ (by decide)
    · have h' : t ∈ (["foodie", "delicious", "restaurant"] : List String) := h
      fin_cases h' <;> exact base _ (by decide)

/-! ### Lemmas about the post-building pipeline -/

/-- Every member of `validPosts` comes from a dict item of the input that has a
caption. -/
theorem mem_validPosts (language : String) (ig : String → Option String)
    (l : List (Option PostData)) (k : Nat) (p : Post) (hp : p ∈ validPosts language ig l k) :
    ∃ pd c k', some pd ∈ l ∧ pd.caption = some c ∧ p = mkPost language ig pd c k' := by
  induction l generalizing k with
  | nil => simp [validPosts] at hp
  | cons hd rest ih =>
    cases hd with
    | none =>
      rw [validPosts] at hp
      obtain ⟨pd, c, k', h1, h2, h3⟩ := ih _ hp
      exact ⟨pd, c, k', List.mem_cons_of_mem _ h1, h2, h3⟩
    | some pd =>
      rw [validPosts] at hp
      cases hcap : pd.caption with
      | none =>
        rw [hcap] at hp
        obtain ⟨pd', c', k', h1, h2, h3⟩ := ih _ hp
        exact ⟨pd', c', k', List.mem_cons_of_mem _ h1, h2, h3⟩
      | some c =>
        rw [hcap] at hp
        rcases List.mem_cons.1 hp with rfl | hp'
        · exact ⟨pd, c, k, List.mem_cons_self _ _, hcap, rfl⟩
        · obtain ⟨pd', c', k', h1, h2, h3⟩ := ih _ hp'
          exact ⟨pd', c', k', List.mem_cons_of_mem _ h1, h2, h3⟩

/-- Every member of `padPosts` is a member of the base list or a fallback post. -/
theorem mem_padPostsAux (language : String) (ig : String → Option String)
    (t fuel : Nat) (base : List Post) (k : Nat) (p : Post)
    (hp : p ∈ padPostsAux language ig t fuel base k) :
    p ∈ base ∨ ∃ k', p = fallbackPost language ig k' := by
  induction fuel generalizing base k with
  | zero => exact Or.inl hp
  | succ fuel ih =>
    rw [padPostsAux] at hp
    split at hp
    next =>
      rcases ih _ _ hp with h | h
      · rcases List.mem_append.1 h with h | h
        · exact Or.inl h
        · exact Or.inr ⟨k, List.mem_singleton.1 h⟩
      · exact Or.inr h
    next => exact Or.inl hp

theorem mem_padPosts (language : String) (ig : String → Option String)
    (t : Nat) (base : List Post) (k : Nat) (p : Post)
    (hp : p ∈ padPosts language ig t base k) :
    p ∈ base ∨ ∃ k', p = fallbackPost language ig k' :=
  mem_padPostsAux language ig t t base k p hp

theorem padPostsAux_length (language : String) (ig : String → Option String)
    (t fuel : Nat) (base : List Post) (k : Nat) (hf : t ≤ fuel + base.length) :
    t ≤ (padPostsAux language ig t fuel base k).length := by
  induction fuel generalizing base k with
  | zero => simpa using hf
  | succ fuel ih =>
    rw [padPostsAux]
    split
    next => exact ih _ _ (by simp; omega)
    next h => omega

/-- The padding loop reaches the target length. -/
theorem padPosts_length (language : String) (ig : String → Option String)
    (t : Nat) (base : List Post) (k : Nat) :
    t ≤ (padPosts language ig t base k).length :=
  padPostsAux_length language ig t t base k (by omega)

/-- Every member of the list returned by `generate_multiple_social_media_posts`
is a validated post built from an input dict or a fallback post. -/
theorem mem_generate (menu : String) (n : Nat) (lang : String) (ab : Bool)
    (pds : List (Option PostData)) (ig : String → Option String) (k : Nat)
    (ps : List Post) (p : Post)
    (h : generate_multiple_social_media_posts menu n lang ab (.ok pds) ig k = .ok ps)
    (hp : p ∈ ps) :
    (∃ pd c k', some pd ∈ pds ∧ pd.caption = some c ∧ p = mkPost lang ig pd c k') ∨
    (∃ k', p = fallbackPost lang ig k') := by
  rw [generate_multiple_social_media_posts] at h
  rw [Except.ok.injEq] at h
  subst h
  have hp' := List.mem_of_mem_take hp
  rcases mem_padPosts _ _ _ _ _ _ hp' with h | h
  · exact Or.inl (mem_validPosts _ _ _ _ _ h)
  · exact Or.inr h

/-- The identifiers drawn by `validPosts` are consecutive from `k`. -/
theorem validPosts_map_post_id (lang : String) (ig : String → Option String)
    (l : List (Option PostData)) (k : Nat) :
    (validPosts lang ig l k).map Post.post_id =
      List.range' k (validPosts lang ig l k).length := by
  induction l generalizing k with
  | nil => rfl
  | cons hd rest ih =>
    cases hd with
    | none => rw [validPosts]; exact ih _
    | some pd =>
      rw [validPosts]
      cases hcap : pd.caption with
      | none => exact ih _
      | some c =>
        simp only [List.map_cons, List.length_cons, List.range'_succ]
        rw [ih (k + 1)]
        rfl

theorem padPostsAux_map_post_id (lang : String) (ig : String → Option String)
    (t fuel : Nat) (base : List Post) (k0 k : Nat) (hk : k = k0 + base.length)
    (hbase : base.map Post.post_id = List.range' k0 base.length) :
    (padPostsAux lang ig t fuel base k).map Post.post_id =
      List.range' k0 (padPostsAux lang ig t fuel base k).length := by
  induction fuel generalizing base k with
  | zero => exact hbase
  | succ fuel ih =>
    rw [padPostsAux]
    split
    next =>
      exact ih _ _ (by simp [hk]; omega)
        (by
          rw [List.map_append, hbase]
          simp only [List.map_cons, List.map_nil, List.length_append, List.length_cons,
            List.length_nil]
          rw [List.range'_concat]
          simp [hk, fallbackPost])
    next => exact hbase

/-- The padding loop keeps the identifiers consecutive from `k0`. -/
theorem padPosts_map_post_id (lang : String) (ig : String → Option String)
    (t : Nat) (base : List Post) (k0 k : Nat) (hk : k = k0 + base.length)
    (hbase : base.map Post.post_id = List.range' k0 base.length) :
    (padPosts lang ig t base k).map Post.post_id =
      List.range' k0 (padPosts lang ig t base k).length :=
  padPostsAux_map_post_id lang ig t t base k0 k hk hbase

/-- The identifiers of the list returned by
`generate_multiple_social_media_posts` are pairwise distinct. -/
theorem generate_post_id_nodup (menu : String) (n : Nat) (lang : String) (ab : Bool)
    (api : ApiOutcome) (ig : String → Option String) (k : Nat) (ps : List Post)
    (h : generate_multiple_social_media_posts menu n lang ab api ig k = .ok ps) :
    (ps.map Post.post_id).Nodup := by
  cases api with
  | apiError => simp [generate_multiple_social_media_posts] at h
  | ok pds =>
    rw [generate_multiple_social_media_posts] at h
    rw [Except.ok.injEq] at h
    subst h
    rw [List.map_take]
    apply List.Nodup.sublist (List.take_sublist _ _)
    rw [padPosts_map_post_id lang ig _ _ k _ rfl (validPosts_map_post_id lang ig pds k)]
    exact List.nodup_range' _ _

/-! ### Lemmas about the request handlers -/

/-- After a successful upload, the session's `uploaded_images` records the
stored filename under the post index. -/
theorem uploadSession_lookup (idx : Nat) (st : String) (s : Session) :
    ((uploadSession idx st s).uploaded_images.getD []).lookup idx = some st := by
  unfold uploadSession
  dsimp only
  split
  next ps hps => split <;> simp
  next => simp

/-- Every rejected upload request gets a JSON error with status 400 and leaves
the session unchanged. -/
theorem upload_image_reject (file : Option String) (idx : Nat) (s : Session) (k : Nat)
    (hbad : ∀ g, file = some g → g = "" ∨ allowed_file g = false) :
    ∃ msg, upload_image file idx s k = (.jsonError msg 400, s) := by
  rcases file with _ | fn
  · exact ⟨"No file selected", rfl⟩
  · rcases hbad fn rfl with hfn | hext
    · exact ⟨"No file selected", by simp [upload_image, hfn]⟩
    · by_cases hfn : fn = ""
      · exact ⟨"No file selected", by simp [upload_image, hfn]⟩
      · exact ⟨"Invalid file type", by simp [upload_image, hfn, hext]⟩

/-! ### Claims -/

/-- C1: for every API response and every input, each post record in the list
returned by `generate_multiple_social_media_posts` has exactly three hashtag
strings in its `hashtags` field. -/
theorem C1_exactly_three_hashtags (menu : String) (n : Nat) (lang : String) (ab : Bool)
    (api : ApiOutcome) (ig : String → Option String) (k : Nat) (ps : List Post)
    (h : generate_multiple_social_media_posts menu n lang ab api ig k = .ok ps) :
    ∀ p ∈ ps, p.hashtags.length = 3 := by
  intro p hp
  cases api with
  | apiError => simp [generate_multiple_social_media_posts] at h
  | ok pds =>
    rcases mem_generate _ _ _ _ _ _ _ _ _ h hp with ⟨pd, c, k', -, -, rfl⟩ | ⟨k', rfl⟩
    · exact finalHashtags_length pd.hashtags
    · rfl

/-- C1 witness: a concrete run (empty API response, one post requested) where
every returned post indeed has three hashtags. -/
theorem C1_exactly_three_hashtags_witness :
    (fallbackPost "english" (fun _ => none) 0).hashtags.length = 3 :=
  C1_exactly_three_hashtags "m" 1 "english" false (.ok []) (fun _ => none) 0 _ rfl _
    (List.mem_singleton.2 rfl)

/-- C2 counterexample: the claim that every returned post contains a locality
hashtag fails.  On an API post with hashtags `["a", "b", "c", "berlin"]` the
locality tag sits at index 3, `has_berlin_tag` is satisfied, so no tag is
inserted, and the truncation `normalized_tags[:3]` then drops it: the returned
post's hashtags are `["a", "b", "c"]`, none of which is a locality tag. -/
theorem C2_counterexample :
    generate_multiple_social_media_posts "menu" 1 "english" false
        (.ok [some ⟨some "c", "", some ["a", "b", "c", "berlin"], "", ""⟩]) (fun _ => none) 0 =
      .ok [{ caption := "c", caption_german := none, hashtags := ["a", "b", "c"],
             image_url := none, image_prompt := "", variant := "", post_id := 0 }] ∧
    ∀ t ∈ (["a", "b", "c"] : List String), pyLower t ∉ berlin_tags :=
  ⟨rfl, by decide⟩

/-- C2 (amended): each returned post contains at least one hashtag from the
fixed locality tag list (compared case-insensitively), unless that post was
built from a response dict whose hashtag list normalizes to more than three
tags; in particular fallback posts and posts whose hashtags value is not a
list always carry one.  The exception is per post: in a mixed response, only
the posts with four or more normalized tags can lack a locality tag (their
truncation to three can drop it — see the counterexample). -/
theorem C2_berlin_tag_amended (menu : String) (n : Nat) (lang : String) (ab : Bool)
    (pds : List (Option PostData)) (ig : String → Option String) (k : Nat) (ps : List Post)
    (h : generate_multiple_social_media_posts menu n lang ab (.ok pds) ig k = .ok ps) :
    ∀ p ∈ ps,
      (∃ t ∈ p.hashtags, pyLower t ∈ berlin_tags) ∨
      (∃ pd c k' l, some pd ∈ pds ∧ pd.caption = some c ∧ p = mkPost lang ig pd c k' ∧
        pd.hashtags = some l ∧ 3 < (normalizeTagList l).length) := by
  intro p hp
  rcases mem_generate _ _ _ _ _ _ _ _ _ h hp with ⟨pd, c, k', hpd, hcap, rfl⟩ | ⟨k', rfl⟩
  · rcases hh : pd.hashtags with _ | l
    · left
      exact finalHashtags_berlin pd.hashtags (by
        intro l hl
        rw [hh] at hl
        simp at hl)
    · by_cases hlen : (normalizeTagList l).length ≤ 3
      · left
        exact finalHashtags_berlin pd.hashtags (by
          intro l' hl'
          rw [hh, Option.some_inj] at hl'
          subst hl'
          exact hlen)
      · right
        exact ⟨pd, c, k', l, hpd, hcap, rfl, hh, by omega⟩
  · left
    refine ⟨"BerlinEats", ?_, by decide⟩
    show "BerlinEats" ∈ (["BerlinEats", "foodie", "Mitte"] : List String)
    decide

/-- C2 witness: a concrete run with a three-tag API post whose returned post
carries a locality tag. -/
theorem C2_berlin_tag_amended_witness :
    (∃ t ∈ Post.hashtags ⟨"c", none, ["berlin", "foodie", "delicious"], none, "", "", 0⟩,
        pyLower t ∈ berlin_tags) ∨
      (∃ pd c k' l, some pd ∈ [some (⟨some "c", "", some ["berlin"], "", ""⟩ : PostData)] ∧
        pd.caption = some c ∧
        (⟨"c", none, ["berlin", "foodie", "delicious"], none, "", "", 0⟩ : Post) =
          mkPost "english" (fun _ => none) pd c k' ∧
        pd.hashtags = some l ∧ 3 < (normalizeTagList l).length) :=
  C2_berlin_tag_amended "menu" 1 "english" false
    [some ⟨some "c", "", some ["berlin"], "", ""⟩] (fun _ => none) 0 _ rfl _
    (List.mem_singleton.2 rfl)

/-- C3: for every `num_posts` between 1 and 10 and every API response,
`generate_multiple_social_media_posts` returns exactly `num_posts` posts when
A/B mode is off and exactly `2 * num_posts` posts when it is on (padding with
fallback posts and truncating as needed). -/
theorem C3_post_count (menu : String) (n : Nat) (lang : String) (ab : Bool)
    (api : ApiOutcome) (ig : String → Option String) (k : Nat) (ps : List Post)
    (_h1 : 1 ≤ n) (_h2 : n ≤ 10)
    (h : generate_multiple_social_media_posts menu n lang ab api ig k = .ok ps) :
    ps.length = if ab then n * 2 else n := by
  cases api with
  | apiError => simp [generate_multiple_social_media_posts] at h
  | ok pds =>
    rw [generate_multiple_social_media_posts, Except.ok.injEq] at h
    subst h
    rw [List.length_take]
    have hlen := padPosts_length lang ig (if ab then n * 2 else n)
      (validPosts lang ig pds k) (k + (validPosts lang ig pds k).length)
    omega

/-- C3 witness: one post requested in A/B mode from an empty API response
yields exactly two posts. -/
theorem C3_post_count_witness :
    1 ≤ 1 ∧ 1 ≤ 10 ∧
    ([fallbackPost "english" (fun _ => none) 0,
      fallbackPost "english" (fun _ => none) 1] : List Post).length =
      if true then 1 * 2 else 1 :=
  ⟨le_refl 1, by omega,
    C3_post_count "m" 1 "english" true (.ok []) (fun _ => none) 0 _ (le_refl 1) (by omega) rfl⟩

/-- C4: for every non-empty list of posts stored in the session, the CSV
export is the fixed header row followed by exactly one row per post in list
order, where row `i` carries `Post_Index` `i + 1` and the post's hashtags
joined by `", "`. -/
theorem C4_csv_export (s : Session) (now : String) (posts : List Post)
    (hposts : s.current_posts = some posts) (hne : posts ≠ []) :
    ∃ rows, export_posts "csv" s now = .fileCSV rows ∧
      rows.length = posts.length + 1 ∧
      rows[0]? = some csvHeaders ∧
      ∀ i p, posts[i]? = some p →
        rows[i + 1]? = some [toString (i + 1), p.caption, p.caption_german.getD "",
          String.intercalate ", " p.hashtags, p.image_url.getD "", p.image_prompt] := by
  refine ⟨csvHeaders :: posts.enum.map (fun ip => csvRow ip.fst ip.snd), ?_, ?_, by simp, ?_⟩
  · rw [export_posts, hposts]
    simp [hne]
  · simp
  · intro i p hip
    rw [List.getElem?_cons_succ, List.getElem?_map, List.getElem?_enum, hip]
    rfl

/-- C4 witness: the CSV export of a one-post session. -/
theorem C4_csv_export_witness :
    ∃ rows, export_posts "csv"
        ⟨some [(⟨"cap", none, ["a", "b", "c"], none, "ip", "", 0⟩ : Post)], none, none, none⟩
        "T" = .fileCSV rows ∧
      rows.length = [(⟨"cap", none, ["a", "b", "c"], none, "ip", "", 0⟩ : Post)].length + 1 ∧
      rows[0]? = some csvHeaders ∧
      ∀ i p, [(⟨"cap", none, ["a", "b", "c"], none, "ip", "", 0⟩ : Post)][i]? = some p →
        rows[i + 1]? = some [toString (i + 1), p.caption, p.caption_german.getD "",
          String.intercalate ", " p.hashtags, p.image_url.getD "", p.image_prompt] :=
  C4_csv_export _ "T" _ rfl (by decide)

/-- C5: for every non-empty list of posts stored in the session, the JSON
export is an object with exactly the keys `menu_text`, `language`,
`generated_at` and `posts`, in that order, where `posts` is the session's post
list unchanged and `language` defaults to `"english"` when absent. -/
theorem C5_json_export (s : Session) (now : String) (posts : List Post)
    (hposts : s.current_posts = some posts) (hne : posts ≠ []) :
    ∃ fields, export_posts "json" s now = .fileJSON fields ∧
      fields.map Prod.fst = ["menu_text", "language", "generated_at", "posts"] ∧
      fields.lookup "posts" = some (.posts posts) ∧
      fields.lookup "language" = some (.str (s.current_language.getD "english")) := by
  refine ⟨[("menu_text", .str (s.current_menu_text.getD "")),
      ("language", .str (s.current_language.getD "english")),
      ("generated_at", .str now),
      ("posts", .posts posts)], ?_, rfl, ?_, ?_⟩
  · rw [export_posts, hposts]
    simp [hne]
  · rfl
  · rfl

/-- C5 witness: the JSON export of a one-post session with no stored
language. -/
theorem C5_json_export_witness :
    ∃ fields, export_posts "json"
        ⟨some [(⟨"cap", none, ["a", "b", "c"], none, "ip", "", 0⟩ : Post)], none, none, none⟩
        "T" = .fileJSON fields ∧
      fields.map Prod.fst = ["menu_text", "language", "generated_at", "posts"] ∧
      fields.lookup "posts" =
        some (.posts [(⟨"cap", none, ["a", "b", "c"], none, "ip", "", 0⟩ : Post)]) ∧
      fields.lookup "language" =
        some (.str ((⟨some [(⟨"cap", none, ["a", "b", "c"], none, "ip", "", 0⟩ : Post)],
          none, none, none⟩ : Session).current_language.getD "english")) :=
  C5_json_export _ "T" _ rfl (by decide)

/-- C6 counterexample: not every request handler surfaces failures as a flash
message with a redirect.  The `/upload_image` handler answers a request with no
file — a bad input — with a JSON error and HTTP status 400, not a flash
message and redirect. -/
theorem C6_counterexample :
    (upload_image none 0 ⟨none, none, none, none⟩ 0).fst = .jsonError "No file selected" 400 ∧
    (upload_image none 0 ⟨none, none, none, none⟩ 0).fst.isFlashRedirect = false :=
  ⟨rfl, rfl⟩

/-- C6 (amended): `generate_posts` surfaces every failure (bad input,
unparsable post count, API error) as a flash message with a redirect, and so
does `export_posts` on its failure (no stored posts); `upload_image`, however,
answers every failed upload with a JSON error carrying HTTP status 400. -/
theorem C6_error_handling_amended :
    (∀ (form : GenForm) (s : Session) (api : ApiOutcome) (ig : String → Option String) (k : Nat),
      (pyStrip form.menu_text = "" ∨ form.num_posts = none ∨
        (∃ n, form.num_posts = some n ∧ (n < 1 ∨ n > 10)) ∨ api = .apiError) →
      (generate_posts form s api ig k).fst.isFlashRedirect = true) ∧
    (∀ (fmt : String) (s : Session) (now : String), s.current_posts.getD [] = [] →
      (export_posts fmt s now).isFlashRedirect = true) ∧
    (∀ (file : Option String) (idx : Nat) (s : Session) (k : Nat),
      (∀ g, file = some g → g = "" ∨ allowed_file g = false) →
      ∃ msg, upload_image file idx s k = (.jsonError msg 400, s)) := by
  refine ⟨?_, ?_, ?_⟩
  · intro form s api ig k hfail
    rcases hnum : form.num_posts with _ | n
    · simp [generate_posts, hnum, Response.isFlashRedirect]
    · rw [generate_posts, hnum]
      dsimp only
      by_cases hm : pyStrip form.menu_text = ""
      · simp [hm, Response.isFlashRedirect]
      · rw [if_neg hm]
        by_cases hr : n < 1 ∨ n > 10
        · rw [if_pos hr]
          rfl
        · rw [if_neg hr]
          have hapi : api = .apiError := by
            rcases hfail with h | h | ⟨n', hn', h⟩ | h
            · exact absurd h hm
            · rw [hnum] at h
              exact absurd h (by simp)
            · rw [hnum, Option.some_inj] at hn'
              subst hn'
              exact absurd h hr
            · exact h
          subst hapi
          simp [generate_multiple_social_media_posts, Response.isFlashRedirect]
  · intro fmt s now hempty
    rw [export_posts]
    simp [hempty, Response.isFlashRedirect]
  · exact upload_image_reject

/-- C6 witness: a concrete API failure surfaced by `generate_posts` as a flash
message with a redirect. -/
theorem C6_error_handling_amended_witness :
    (generate_posts ⟨"menu", some 3, "english", false⟩ ⟨none, none, none, none⟩ .apiError
      (fun _ => none) 0).fst.isFlashRedirect = true :=
  C6_error_handling_amended.1 ⟨"menu", some 3, "english", false⟩ ⟨none, none, none, none⟩
    .apiError (fun _ => none) 0 (Or.inr (Or.inr (Or.inr rfl)))

/-- C7 counterexample: hashtag normalization does not remove all surrounding
whitespace.  The raw tag `"# x"` is first stripped (a no-op here) and then has
its leading `'#'` removed, leaving `" x"`, which starts with a space and is
returned as-is in the post's hashtags. -/
theorem C7_counterexample :
    generate_multiple_social_media_posts "menu" 1 "english" false
        (.ok [some ⟨some "c", "", some ["# x", "a", "b"], "", ""⟩]) (fun _ => none) 0 =
      .ok [{ caption := "c", caption_german := none, hashtags := [" x", "a", "BerlinEats"],
             image_url := none, image_prompt := "", variant := "", post_id := 0 }] ∧
    pyStrip " x" ≠ " x" :=
  ⟨rfl, by decide⟩

/-- C7 (amended): every hashtag string in every returned post is non-empty,
does not begin with `'#'`, and carries no trailing whitespace; leading
whitespace, however, can survive when a raw tag has whitespace after its `'#'`
prefix (see the counterexample). -/
theorem C7_normalization_amended (menu : String) (n : Nat) (lang : String) (ab : Bool)
    (api : ApiOutcome) (ig : String → Option String) (k : Nat) (ps : List Post)
    (h : generate_multiple_social_media_posts menu n lang ab api ig k = .ok ps) :
    ∀ p ∈ ps, ∀ t ∈ p.hashtags, normalizedTag t = true := by
  intro p hp t ht
  cases api with
  | apiError => simp [generate_multiple_social_media_posts] at h
  | ok pds =>
    rcases mem_generate _ _ _ _ _ _ _ _ _ h hp with ⟨pd, c, k', -, -, rfl⟩ | ⟨k', rfl⟩
    · exact finalHashtags_spec pd.hashtags t ht
    · have ht' : t ∈ (["BerlinEats", "foodie", "Mitte"] : List String) := ht
      fin_cases ht' <;> decide

/-- C7 witness: a concrete run whose returned hashtags all satisfy the amended
normalization property. -/
theorem C7_normalization_amended_witness :
    normalizedTag "BerlinEats" = true :=
  C7_normalization_amended "m" 1 "german" false (.ok []) (fun _ => none) 5 _ rfl
    (fallbackPost "german" (fun _ => none) 5) (List.mem_singleton.2 rfl) "BerlinEats"
    (by decide)

/-- C8: the posts returned by one call of `generate_multiple_social_media_posts`
carry pairwise distinct `post_id` identifiers (the uuid supply is modelled as
a fresh-identifier counter, under which distinct draws are distinct). -/
theorem C8_post_id_distinct (menu : String) (n : Nat) (lang : String) (ab : Bool)
    (api : ApiOutcome) (ig : String → Option String) (k : Nat) (ps : List Post)
    (h : generate_multiple_social_media_posts menu n lang ab api ig k = .ok ps) :
    ∀ (i j : Nat) (hi : i < ps.length) (hj : j < ps.length), i ≠ j →
      ps[i].post_id ≠ ps[j].post_id := by
  intro i j hi hj hij hcontra
  have hnodup := generate_post_id_nodup menu n lang ab api ig k ps h
  have hmap : ∀ (m : Nat) (hm : m < ps.length),
      (ps.map Post.post_id).get ⟨m, by simpa using hm⟩ = ps[m].post_id := by
    intro m hm
    simp
  have heq : (ps.map Post.post_id).get ⟨i, by simpa using hi⟩ =
      (ps.map Post.post_id).get ⟨j, by simpa using hj⟩ := by
    rw [hmap i hi, hmap j hj]
    exact hcontra
  have hfin := List.nodup_iff_injective_get.1 hnodup heq
  exact hij (congrArg Fin.val hfin)

/-- C8 witness: a concrete two-post run with distinct identifiers at positions
0 and 1. -/
theorem C8_post_id_distinct_witness :
    ([fallbackPost "english" (fun _ => none) 3,
      fallbackPost "english" (fun _ => none) 4] : List Post)[0].post_id ≠
      ([fallbackPost "english" (fun _ => none) 3,
        fallbackPost "english" (fun _ => none) 4] : List Post)[1].post_id :=
  C8_post_id_distinct "m" 1 "english" true (.ok []) (fun _ => none) 3 _ rfl 0 1 (by decide)
    (by decide) (by omega)

/-- C9: on a `/generate` request whose stripped menu text is empty or whose
parsed post count lies outside 1..10, `generate_posts` answers with an error
flash message and a redirect, does not call the completion API, and leaves the
session (and so its stored posts) unchanged. -/
theorem C9_generate_validation (form : GenForm) (s : Session) (api : ApiOutcome)
    (ig : String → Option String) (k : Nat) (n : Int)
    (hn : form.num_posts = some n)
    (hfail : pyStrip form.menu_text = "" ∨ n < 1 ∨ n > 10) :
    ∃ msg, generate_posts form s api ig k =
      (.redirectFlash msg "error" "index", s, false) := by
  rw [generate_posts, hn]
  dsimp only
  by_cases hm : pyStrip form.menu_text = ""
  · exact ⟨"Please enter your restaurant menu text.", by rw [if_pos hm]⟩
  · have hr : n < 1 ∨ n > 10 := by
      rcases hfail with h | h | h
      · exact absurd h hm
      · exact Or.inl h
      · exact Or.inr h
    exact ⟨"Number of posts must be between 1 and 10.", by rw [if_neg hm, if_pos hr]⟩

/-- C9 witness: a whitespace-only menu text is rejected with a flash redirect,
an unchanged session and no API call. -/
theorem C9_generate_validation_witness :
    ∃ msg, generate_posts ⟨" ", some 5, "english", false⟩ ⟨none, none, none, none⟩ .apiError
        (fun _ => none) 0 =
      (.redirectFlash msg "error" "index", ⟨none, none, none, none⟩, false) :=
  C9_generate_validation ⟨" ", some 5, "english", false⟩ ⟨none, none, none, none⟩ .apiError
    (fun _ => none) 0 5 rfl (Or.inl (by decide))

/-- C10: a `/upload_image` request saves a file and records it in the session
exactly when a file is present with a non-empty filename whose extension (the
part after the last dot, lowercased) is allowed; every other request gets a
JSON error with HTTP status 400 and leaves the session unchanged. -/
theorem C10_upload_validation (file : Option String) (idx : Nat) (s : Session) (k : Nat) :
    ((∃ fn url s', upload_image file idx s k = (.jsonUpload fn url, s') ∧
        (s'.uploaded_images.getD []).lookup idx = some fn) ↔
      ∃ fn, file = some fn ∧ fn ≠ "" ∧ allowed_file fn = true) ∧
    ((∀ g, file = some g → g = "" ∨ allowed_file g = false) →
      ∃ msg, upload_image file idx s k = (.jsonError msg 400, s)) := by
  constructor
  · constructor
    · rintro ⟨fn, url, s', hresp, -⟩
      rcases file with _ | g
      · exact absurd hresp (by simp [upload_image])
      · by_cases hg : g = ""
        · exact absurd hresp (by simp [upload_image, hg])
        · by_cases ha : allowed_file g
          · exact ⟨g, rfl, hg, ha⟩
          · exact absurd hresp (by simp [upload_image, hg, ha])
    · rintro ⟨fn, rfl, hfn, ha⟩
      refine ⟨toString k ++ "." ++ fileExt fn,
        "/uploaded_image/" ++ (toString k ++ "." ++ fileExt fn),
        uploadSession idx (toString k ++ "." ++ fileExt fn) s, ?_, uploadSession_lookup _ _ _⟩
      rw [upload_image]
      rw [if_neg hfn, if_pos ha]
  · exact upload_image_reject file idx s k

/-- C10 witness: uploading `"a.PNG"` succeeds and is recorded under the post
index; the stored name carries the lowercased extension. -/
theorem C10_upload_validation_witness :
    ∃ fn url s', upload_image (some "a.PNG") 2 ⟨none, none, none, none⟩ 7 =
      (.jsonUpload fn url, s') ∧
      (s'.uploaded_images.getD []).lookup 2 = some fn :=
  (C10_upload_validation (some "a.PNG") 2 ⟨none, none, none, none⟩ 7).1.2
    ⟨"a.PNG", rfl, by decide, by decide⟩
